import Mathlib

/-!
Verification development for the dns-lexicon provider modules
(`devnomads.py`, `hetzner.py`, `scaleway.py`).

Python strings are embedded as `List Char`; `str.split(sep)` is
`List.splitOn`, `sep.join` is `List.intercalate`, `str.strip(c)` drops the
character from both ends.  Stateful provider operations are embedded as pure
functions from an explicit zone snapshot; HTTP responses are passed in as
`Except` values carrying the status code on failure.
-/

namespace DnsLexicon

/-- Python strings as lists of characters. -/
abbrev Str := List Char

/-- Convert a Lean string literal to the character-list embedding. -/
def txt (s : String) : Str := s.toList

/-- Python `s.endswith(suffix)`. -/
def pyEndsWith (s suffix : Str) : Bool := suffix.isSuffixOf s

/-- Python `s.rstrip(c)` for a single strip character. -/
def rstripChar (c : Char) (s : Str) : Str := (s.reverse.dropWhile (· = c)).reverse

/-- Python `s.lstrip(c)` for a single strip character. -/
def lstripChar (c : Char) (s : Str) : Str := s.dropWhile (· = c)

/-- Python `s.strip(c)` for a single strip character. -/
def stripChar (c : Char) (s : Str) : Str := rstripChar c (lstripChar c s)

/-- devnomads `Provider._ensure_dot`: append a trailing dot unless present. -/
def ensure_dot (t : Str) : Str := if pyEndsWith t (txt ".") then t else t ++ txt "."

/-- Modelled from the spec: the NameNormalizer of the shared base provider
class (`lexicon.interfaces`, not under src/).  Spec section 4.1: `full_name`
appends the domain suffix when the name is relative; trailing dots are
stripped first so the function is idempotent. -/
def full_name (domain name : Str) : Str :=
  let n := rstripChar '.' name
  if pyEndsWith n domain then n else n ++ '.' :: domain

/-- Modelled from the spec: the FQDN form with the single trailing dot ensured
(spec section 4.1, "ensures single trailing dot"). -/
def fqdn_name (domain name : Str) : Str := full_name domain name ++ txt "."

/-- Modelled from the spec: `relative_name` strips the zone apex suffix
(spec section 4.1). -/
def relative_name (domain name : Str) : Str :=
  let n := rstripChar '.' name
  if pyEndsWith n ('.' :: domain) then n.take (n.length - (domain.length + 1)) else n

/-- devnomads `Provider._make_identifier`: the f-string
`"{rtype}/{name}={content}"`. -/
def make_identifier (rtype name content : Str) : Str :=
  rtype ++ '/' :: (name ++ '=' :: content)

/-- devnomads `Provider._parse_identifier`: split the identifier on every
`/`, take `parts[0]` as the rtype and split `parts[1]` on `=`; the name is the
first `=`-segment and the content is the remaining segments rejoined with `=`.
Python indexes `parts[1]`, which presupposes a `/` in the identifier;
`_make_identifier` always inserts one, and the total model returns `""` for a
missing part. -/
def parse_identifier (identifier : Str) : Str × Str × Str :=
  let parts := identifier.splitOn '/'
  let rtype := parts.headD []
  let parts2 := (parts.getD 1 []).splitOn '='
  let name := parts2.headD []
  let content := List.intercalate ['='] parts2.tail
  (rtype, name, content)

/-- devnomads `Provider._clean_content`: TXT/LOC values get a double quote
prepended when the first character is not a quote and appended when the last
character is not a quote; CNAME values go through `_fqdn_name`; everything
else passes through.  Python indexes `content[0]`, so an empty TXT/LOC
content raises IndexError: the model returns `none` there. -/
def clean_content (domain rtype content : Str) : Option Str :=
  if rtype = txt "TXT" ∨ rtype = txt "LOC" then
    match content with
    | [] => none
    | c :: cs =>
      let c1 := if c ≠ '"' then '"' :: c :: cs else c :: cs
      some (if c1.getLastD ' ' ≠ '"' then c1 ++ ['"'] else c1)
  else if rtype = txt "CNAME" then some (fqdn_name domain content)
  else some content

/-- devnomads `Provider._unclean_content`: TXT/LOC values are stripped of all
leading and trailing quotes (`content.strip('"')`), CNAME values go through
`_full_name`, everything else passes through. -/
def unclean_content (domain rtype content : Str) : Str :=
  if rtype = txt "TXT" ∨ rtype = txt "LOC" then stripChar '"' content
  else if rtype = txt "CNAME" then full_name domain content
  else content

/-- Python `str.split()` with no argument: split on runs of whitespace,
discarding empty fragments; `acc` holds the current fragment reversed. -/
def splitWsAux (acc : Str) : Str → List Str
  | [] => if acc = [] then [] else [acc.reverse]
  | c :: cs =>
    if c.isWhitespace then (if acc = [] then [] else [acc.reverse]) ++ splitWsAux [] cs
    else splitWsAux (c :: acc) cs

/-- Python `content.split()` as used by hetzner `_record_from`. -/
def splitWs (s : Str) : List Str := splitWsAux [] s

/-- hetzner `Provider._record_from`: TXT content is split on whitespace and
each fragment is wrapped in double quotes, the fragments joined with `""`
between; other types pass through. -/
def record_from_value (rtype content : Str) : Str :=
  if rtype = txt "TXT" then (List.map (fun p => '"' :: p ++ ['"']) (splitWs content)).flatten
  else content

/-- Python `value.replace('""', ' ')`: left-to-right, non-overlapping. -/
def replaceQQ : Str → Str
  | [] => []
  | [c] => [c]
  | c1 :: c2 :: rest =>
    if c1 = '"' ∧ c2 = '"' then ' ' :: replaceQQ rest
    else c1 :: replaceQQ (c2 :: rest)

/-- hetzner `Provider._rrset_to_records` content transform: TXT transport
values go through `.replace('""', ' ').lstrip('"').rstrip('"')`; other types
pass through unchanged. -/
def hetzner_read_value (rtype value : Str) : Str :=
  if rtype ≠ txt "TXT" then value
  else rstripChar '"' (lstripChar '"' (replaceQQ value))

/-- Python `.replace('" "', '')` as used by scaleway `_decode_content`. -/
def replaceQSQ : Str → Str
  | '"' :: ' ' :: '"' :: rest => replaceQSQ rest
  | c :: rest => c :: replaceQSQ rest
  | [] => []

/-- Python `.replace('\x5c"', '"')` as used by scaleway `_decode_content`. -/
def replaceEscQuote : Str → Str
  | '\\' :: '"' :: rest => '"' :: replaceEscQuote rest
  | c :: rest => c :: replaceEscQuote rest
  | [] => []

/-- Python `.replace('\x5c\x5c', '\x5c')` as used by scaleway
`_decode_content`. -/
def replaceEscBackslash : Str → Str
  | '\\' :: '\\' :: rest => '\\' :: replaceEscBackslash rest
  | c :: rest => c :: replaceEscBackslash rest
  | [] => []

/-- scaleway `Provider._decode_content`: empty or non-TXT data passes through;
TXT data that starts and ends with a quote is stripped of its first and last
character and unescaped via the three replacements. -/
def decode_content (rtype data : Str) : Str :=
  if data = [] ∨ rtype ≠ txt "TXT" then data
  else if data.headD ' ' = '"' ∧ data.getLastD ' ' = '"' then
    replaceEscBackslash (replaceEscQuote (replaceQSQ (data.drop 1).dropLast))
  else data

/-- Python `x or d` on an optional integer: `None` and `0` are falsy. -/
def pyOrNat (x : Option Nat) (d : Nat) : Nat :=
  match x with
  | some n => if n = 0 then d else n
  | none => d

/-- Record dictionary produced by every provider's `list_records`. -/
structure RecordView where
  id : Str
  rtype : Str
  name : Str
  content : Str
  ttl : Nat
deriving DecidableEq

/-- devnomads / PowerDNS record inside an rrset: `{"content", "disabled"}`. -/
structure DRecord where
  content : Str
  disabled : Bool
deriving DecidableEq

/-- devnomads / PowerDNS rrset: name, type, ttl and the value list.  The
optional `comments` key only affects the JSON body `delete_record` sends and
is not modelled. -/
structure DRRSet where
  name : Str
  rtype : Str
  ttl : Nat
  records : List DRecord
deriving DecidableEq

/-- devnomads PATCH changetype. -/
inductive DChangetype
  | REPLACE
  | DELETE
deriving DecidableEq

/-- One rrset entry of the devnomads PATCH body. -/
structure DPatch where
  name : Str
  rtype : Str
  ttl : Nat
  records : List DRecord
  changetype : DChangetype
deriving DecidableEq

/-- Errors raised by the embedded devnomads operations. -/
inductive DevErr
  | indexError
  | missingArgs
  | nameError
deriving DecidableEq

/-- Lookup of an rrset by raw server name and type. -/
def find_rrset_d (zone : List DRRSet) (name rtype : Str) : Option DRRSet :=
  zone.find? (fun rr => decide (rr.name = name ∧ rr.rtype = rtype))

/-- Record views one devnomads rrset contributes to `list_records`: name via
`_full_name`, content via `_unclean_content`, id via `_make_identifier` on
the raw rrset name and transport content. -/
def d_rrset_views (domain : Str) (rrset : DRRSet) : List RecordView :=
  rrset.records.map (fun record =>
    { id := make_identifier rrset.rtype rrset.name record.content,
      rtype := rrset.rtype,
      name := full_name domain rrset.name,
      content := unclean_content domain rrset.rtype record.content,
      ttl := rrset.ttl })

/-- devnomads `list_records`: rrsets are filtered on FQDN name and type, then
each record on transport content equal to `_clean_content(rtype, content)`
(the filter rtype, `None` modelled as the empty string, where
`_clean_content` passes values through).  The result is `none` exactly when
`_clean_content` raises on an empty TXT/LOC content filter; Python raises
only once the comparison is reached, the model raises eagerly. -/
def list_records_d (domain : Str) (zone : List DRRSet)
    (rtypeF nameF contentF : Option Str) : Option (List RecordView) :=
  let keep := zone.filter (fun rrset =>
    (nameF.all (fun n => decide (fqdn_name domain rrset.name = fqdn_name domain n))) &&
    (rtypeF.all (fun rt => decide (rrset.rtype = rt))))
  match contentF with
  | none => some ((keep.map (d_rrset_views domain)).flatten)
  | some c =>
    match clean_content domain (rtypeF.getD []) c with
    | none => none
    | some cv =>
      some (((keep.map (fun rrset =>
        (rrset.records.filter (fun record => decide (record.content = cv))).map
          (fun record =>
            { id := make_identifier rrset.rtype rrset.name record.content,
              rtype := rrset.rtype,
              name := full_name domain rrset.name,
              content := unclean_content domain rrset.rtype record.content,
              ttl := rrset.ttl }))).flatten))

/-- devnomads `create_record` request body (the single rrset of the PATCH):
a REPLACE whose record list is the new value followed by the existing values
that differ from it; the ttl is the lexicon option (or 600) only when no
rrset with that name and type exists, otherwise the existing rrset's ttl —
unconditionally.  `none` when `_clean_content` raises. -/
def create_request_d (domain : Str) (ttlOpt : Option Nat) (zone : List DRRSet)
    (rtype name content : Str) : Option DPatch :=
  (clean_content domain rtype content).map (fun newcontent =>
    let rname := fqdn_name domain name
    match find_rrset_d zone rname rtype with
    | some rrset =>
      { name := rname, rtype := rtype, ttl := rrset.ttl,
        records := ⟨newcontent, false⟩ ::
          rrset.records.filter (fun r => decide (r.content ≠ newcontent)),
        changetype := .REPLACE }
    | none =>
      { name := rname, rtype := rtype, ttl := pyOrNat ttlOpt 600,
        records := [⟨newcontent, false⟩], changetype := .REPLACE })

/-- Modelled from the spec: the DevNomads (PowerDNS-style) server applying
one rrset PATCH — the server is an external collaborator, only the request
is in src/.  Spec section 4.4: DELETE removes the whole rrset resource;
REPLACE substitutes the rrset, and a resulting empty value list deletes the
whole rrset resource. -/
def apply_patch_d (zone : List DRRSet) (p : DPatch) : List DRRSet :=
  let rest := zone.filter (fun rr => decide (¬(rr.name = p.name ∧ rr.rtype = p.rtype)))
  match p.changetype with
  | .DELETE => rest
  | .REPLACE => if p.records = [] then rest else rest ++ [⟨p.name, p.rtype, p.ttl, p.records⟩]

/-- devnomads `create_record` composed with the server application. -/
def create_record_d (domain : Str) (ttlOpt : Option Nat) (zone : List DRRSet)
    (rtype name content : Str) : Option (List DRRSet × Bool) :=
  (create_request_d domain ttlOpt zone rtype name content).map
    (fun p => (apply_patch_d zone p, true))

/-- devnomads `delete_record`: an identifier is parsed into (rtype, name,
content); missing rtype or name raises; the first rrset matching type and
FQDN name is turned into a DELETE (content `None`) or a REPLACE keeping the
values whose transport content differs from `_clean_content(rrset.type,
content)`.  When no rrset matches, the Python code falls through the loop
with `update_data` unbound and raises `NameError` — `.error .nameError`. -/
def delete_record_d (domain : Str) (zone : List DRRSet)
    (identifier : Option Str) (rtypeA nameA contentA : Option Str) :
    Except DevErr (List DRRSet × Bool) :=
  let args :=
    match identifier with
    | some ident =>
      let parsed := parse_identifier ident
      (some parsed.1, some parsed.2.1, some parsed.2.2)
    | none => (rtypeA, nameA, contentA)
  match args with
  | (some rtype, some name, contentO) =>
    match zone.find? (fun rr =>
        decide (rr.rtype = rtype ∧ fqdn_name domain rr.name = fqdn_name domain name)) with
    | none => .error .nameError
    | some rrset =>
      match contentO with
      | none =>
        .ok (apply_patch_d zone ⟨rrset.name, rrset.rtype, rrset.ttl, [], .DELETE⟩, true)
      | some content =>
        match clean_content domain rrset.rtype content with
        | none => .error .indexError
        | some cv =>
          .ok (apply_patch_d zone
            ⟨rrset.name, rrset.rtype, rrset.ttl,
             rrset.records.filter (fun r => decide (r.content ≠ cv)), .REPLACE⟩, true)
  | _ => .error .missingArgs

/-- devnomads `update_record`: `delete_record(identifier)` followed by
`create_record(rtype, name, content)`. -/
def update_record_d (domain : Str) (ttlOpt : Option Nat) (zone : List DRRSet)
    (identifier : Str) (rtype name content : Str) : Except DevErr (List DRRSet × Bool) :=
  match delete_record_d domain zone (some identifier) none none none with
  | .error e => .error e
  | .ok (zone2, _) =>
    match create_record_d domain ttlOpt zone2 rtype name content with
    | none => .error .indexError
    | some (zone3, ok3) => .ok (zone3, ok3)

/-- scaleway flat record resource. -/
structure SRecord where
  id : Str
  name : Str
  rtype : Str
  data : Str
  ttl : Nat
deriving DecidableEq

/-- scaleway record view: name via `_full_name`, content via
`_decode_content`. -/
def s_record_view (domain : Str) (r : SRecord) : RecordView :=
  { id := r.id, rtype := r.rtype, name := full_name domain r.name,
    content := decode_content r.rtype r.data, ttl := r.ttl }

/-- scaleway `_filter_records`: with no filter at all the records are
returned unfiltered; otherwise each given filter must match exactly (name
after `_full_name`).  Filters are `Option Str`, `none` standing for Python
`None`; the falsiness of an empty filter string is not modelled. -/
def filter_records_s (domain : Str) (records : List RecordView)
    (rtypeF nameF contentF : Option Str) : List RecordView :=
  if rtypeF = none ∧ nameF = none ∧ contentF = none then records
  else records.filter (fun record =>
    (rtypeF.all (fun rt => decide (record.rtype = rt))) &&
    (nameF.all (fun n => decide (record.name = full_name domain n))) &&
    (contentF.all (fun c => decide (record.content = c))))

/-- scaleway `list_records`. -/
def list_records_s (domain : Str) (zone : List SRecord)
    (rtypeF nameF contentF : Option Str) : List RecordView :=
  filter_records_s domain (zone.map (s_record_view domain)) rtypeF nameF contentF

/-- scaleway `create_record` composed with the server applying the issued
"add" change.  Modelled from the spec (section 4.4): the server appends the
new record and assigns it the vendor id `freshId`; that application is not
in src/. -/
def create_record_s (domain : Str) (ttlOpt : Option Nat) (freshId : Str)
    (zone : List SRecord) (rtype name content : Str) : List SRecord × Bool :=
  if list_records_s domain zone (some rtype) (some name) (some content) ≠ [] then
    (zone, true)
  else
    (zone ++ [⟨freshId, name, rtype, content, pyOrNat ttlOpt 3600⟩], true)

/-- scaleway `delete_record` composed with the server applying the "delete"
changes (modelled from the spec: each change removes the record with that
id).  With an identifier one delete change is issued; otherwise the records
matching the filters are collected and, when none match, the call returns
true without issuing anything. -/
def delete_record_s (domain : Str) (zone : List SRecord)
    (identifier : Option Str) (rtypeF nameF contentF : Option Str) :
    List SRecord × Bool :=
  match identifier with
  | some ident => (zone.filter (fun r => decide (r.id ≠ ident)), true)
  | none =>
    let records := list_records_s domain zone rtypeF nameF contentF
    if records = [] then (zone, true)
    else (zone.filter (fun r => decide (¬∃ v ∈ records, v.id = r.id)), true)

/-- Errors raised by the embedded scaleway operations. -/
inductive ScwErr
  | notFound
  | ambiguous
deriving DecidableEq

/-- The single "set" change `update_record` sends: the target id and the
replacement record payload as given by the caller (ttl from the lexicon
option or the 3600 default). -/
structure SetChange where
  id : Str
  name : Option Str
  rtype : Option Str
  data : Option Str
  ttl : Nat
deriving DecidableEq

/-- scaleway `update_record` up to the issued mutation: without an
identifier the candidate records are looked up by `list_records(None, name)`
— the name filter only, the given rtype is ignored — raising unless exactly
one candidate matches; then a "set" change on the resolved id is issued. -/
def update_record_s (domain : Str) (ttlOpt : Option Nat) (zone : List SRecord)
    (identifier : Option Str) (rtypeA nameA contentA : Option Str) :
    Except ScwErr SetChange :=
  let mkChange := fun (ident : Str) =>
    SetChange.mk ident nameA rtypeA contentA (pyOrNat ttlOpt 3600)
  match identifier with
  | some ident => .ok (mkChange ident)
  | none =>
    match list_records_s domain zone none nameA none with
    | [] => .error .notFound
    | [record] => .ok (mkChange record.id)
    | _ => .error .ambiguous

/-- hetzner record: `{"value"}`. -/
structure HRecord where
  value : Str
deriving DecidableEq

/-- hetzner rrset resource. -/
structure HRRSet where
  id : Str
  name : Str
  rtype : Str
  ttl : Nat
  records : List HRecord
deriving DecidableEq

/-- Errors raised by the embedded hetzner operations.  `_find_record` calls
`next()` on a possibly empty iterator, so a missing id raises StopIteration
— the `record is None` checks after it are unreachable. -/
inductive HErr
  | selectorError
  | moveTargetError
  | stopIteration
deriving DecidableEq

/-- hetzner rrset actions issued against the vendor API, addressed by the
`_rrset_url` name (`_to_rrset_name`) and type. -/
inductive HMutation
  | addRecords (rrsetName rtype : Str) (ttl : Option Nat) (records : List HRecord)
  | setRecords (rrsetName rtype : Str) (records : List HRecord)
  | removeRecords (rrsetName rtype : Str) (records : List HRecord)
  | deleteRRSet (rrsetName rtype : Str)
deriving DecidableEq

/-- hetzner `Provider._to_rrset_name`: relativize the record name when it
lies under the domain. -/
def to_rrset_name (domain record_name : Str) : Str :=
  if pyEndsWith (rstripChar '.' record_name) domain then relative_name domain record_name
  else record_name

/-- hetzner `Provider._get_ttl`: `int(ttl) if ttl else None` — a 0 or absent
lexicon ttl option yields `None`. -/
def h_get_ttl (ttlOpt : Option Nat) : Option Nat :=
  match ttlOpt with
  | some 0 => none
  | some t => some t
  | none => none

/-- hetzner `Provider._rrset_to_records`: one view per value, inheriting the
rrset id/ttl/type, name via `_full_name`, TXT values decoded. -/
def h_rrset_views (domain : Str) (rrset : HRRSet) : List RecordView :=
  rrset.records.map (fun record =>
    { id := rrset.id, rtype := rrset.rtype,
      name := full_name domain rrset.name,
      content := hetzner_read_value rrset.rtype record.value,
      ttl := rrset.ttl })

/-- hetzner `list_records`: flatten all rrsets, then AND the optional
filters (name via `_full_name`). -/
def list_records_h (domain : Str) (zone : List HRRSet)
    (rtypeF nameF contentF : Option Str) : List RecordView :=
  let nameN := nameF.map (full_name domain)
  ((zone.map (h_rrset_views domain)).flatten).filter (fun record =>
    (rtypeF.all (fun rt => decide (record.rtype = rt))) &&
    (nameN.all (fun n => decide (record.name = n))) &&
    (contentF.all (fun c => decide (record.content = c))))

/-- Modelled from the spec: the hetzner server applying one rrset action
(spec section 4.4) — the server is an external collaborator, only the
request is in src/.  add_records appends the values to the rrset with that
url-name and type (updating the ttl when one is given), creating it with
the vendor id `freshId` at the given ttl (or the vendor default) when
absent; set_records replaces the values; remove_records drops the listed
values and rrsets left without values disappear; the rrset DELETE removes
the resource (a missing resource is modelled as nothing to do). -/
def apply_mutation_h (freshId : Str) (defaultTtl : Nat) (zone : List HRRSet) :
    HMutation → List HRRSet
  | .addRecords rname rtype ttl records =>
    match zone.find? (fun rr => decide (rr.name = rname ∧ rr.rtype = rtype)) with
    | some _ =>
      zone.map (fun rr =>
        if rr.name = rname ∧ rr.rtype = rtype then
          { rr with ttl := ttl.getD rr.ttl, records := rr.records ++ records }
        else rr)
    | none => zone ++ [⟨freshId, rname, rtype, ttl.getD defaultTtl, records⟩]
  | .setRecords rname rtype records =>
    zone.map (fun rr =>
      if rr.name = rname ∧ rr.rtype = rtype then { rr with records := records } else rr)
  | .removeRecords rname rtype records =>
    (zone.map (fun rr =>
      if rr.name = rname ∧ rr.rtype = rtype then
        { rr with records := rr.records.filter (fun v => decide (v ∉ records)) }
      else rr)).filter (fun rr => decide (rr.records ≠ []))
  | .deleteRRSet rname rtype =>
    zone.filter (fun rr => decide (¬(rr.name = rname ∧ rr.rtype = rtype)))

/-- hetzner `create_record`: a duplicate found by `list_records` short-cuts
to true with no mutation; otherwise one add_records action is issued (ttl
from `_get_ttl`, value via `_record_from`) and applied. -/
def create_record_h (domain : Str) (ttlOpt : Option Nat) (freshId : Str)
    (defaultTtl : Nat) (zone : List HRRSet) (rtype name content : Str) :
    List HRRSet × List HMutation × Bool :=
  if list_records_h domain zone (some rtype) (some name) (some content) ≠ [] then
    (zone, [], true)
  else
    let m : HMutation := .addRecords (to_rrset_name domain name) rtype (h_get_ttl ttlOpt)
      [⟨record_from_value rtype content⟩]
    (apply_mutation_h freshId defaultTtl zone m, [m], true)

/-- hetzner `Provider._find_record`: `next(iter([...]))` over the records of
`list_records(content=content)` with the wanted id — StopIteration when none
matches. -/
def find_record_h (domain : Str) (zone : List HRRSet) (identifier : Str)
    (contentF : Option Str) : Except HErr RecordView :=
  match (list_records_h domain zone none none contentF).filter
      (fun r => decide (r.id = identifier)) with
  | [] => .error .stopIteration
  | r :: _ => .ok r

/-- hetzner `delete_record`: requires an identifier or both rtype and name;
an identifier is resolved through `_find_record`; without content the whole
rrset resource is deleted, with content one remove_records action is
issued. -/
def delete_record_h (domain : Str) (freshId : Str) (defaultTtl : Nat)
    (zone : List HRRSet) (identifier : Option Str) (rtypeA nameA contentA : Option Str) :
    Except HErr (List HRRSet × List HMutation × Bool) :=
  if identifier = none ∧ (rtypeA = none ∨ nameA = none) then .error .selectorError
  else
    match (match identifier with
           | some ident => (find_record_h domain zone ident none).map
               (fun (r : RecordView) => (r.rtype, r.name))
           | none => .ok (rtypeA.getD [], nameA.getD [])) with
    | .error e => .error e
    | .ok (rtype, name) =>
      match contentA with
      | none =>
        let m : HMutation := .deleteRRSet (to_rrset_name domain name) rtype
        .ok (apply_mutation_h freshId defaultTtl zone m, [m], true)
      | some content =>
        let m : HMutation := .removeRecords (to_rrset_name domain name) rtype
          [⟨record_from_value rtype content⟩]
        .ok (apply_mutation_h freshId defaultTtl zone m, [m], true)

/-- hetzner `Provider._change_content`: one set_records action. -/
def change_content_h (domain : Str) (freshId : Str) (defaultTtl : Nat)
    (zone : List HRRSet) (rtype name newContent : Str) :
    List HRRSet × List HMutation × Bool :=
  let m : HMutation := .setRecords (to_rrset_name domain name) rtype
    [⟨record_from_value rtype newContent⟩]
  (apply_mutation_h freshId defaultTtl zone m, [m], true)

/-- hetzner `Provider._move_record`: find the original record by identifier
and the NEW content, then `create_record` for the target type/name, and only
afterwards `delete_record(identifier, content)` — create first, delete
second. -/
def move_record_h (domain : Str) (ttlOpt : Option Nat) (freshId : Str)
    (defaultTtl : Nat) (zone : List HRRSet) (identifier content : Str)
    (toRtype toName : Option Str) : Except HErr (List HRRSet × List HMutation × Bool) :=
  if toRtype = none ∧ toName = none then .error .moveTargetError
  else
    match find_record_h domain zone identifier (some content) with
    | .error e => .error e
    | .ok original =>
      let step1 := create_record_h domain ttlOpt freshId defaultTtl zone
        (toRtype.getD original.rtype) (toName.getD original.name) content
      match delete_record_h domain freshId defaultTtl step1.1 (some identifier)
          none none (some content) with
      | .error e => .error e
      | .ok (zone3, t2, _) => .ok (zone3, step1.2.1 ++ t2, true)

/-- hetzner `update_record`: neither an identifier nor both rtype and name
raises before anything is issued; identifier plus content moves the record;
rtype, name and content all given replaces the content in place; any other
combination silently returns false. -/
def update_record_h (domain : Str) (ttlOpt : Option Nat) (freshId : Str)
    (defaultTtl : Nat) (zone : List HRRSet)
    (identifier rtypeA nameA contentA : Option Str) :
    Except HErr (List HRRSet × List HMutation × Bool) :=
  if identifier = none ∧ (rtypeA = none ∨ nameA = none) then .error .selectorError
  else
    match identifier, contentA with
    | some ident, some content =>
      move_record_h domain ttlOpt freshId defaultTtl zone ident content rtypeA nameA
    | _, _ =>
      match rtypeA, nameA, contentA with
      | some rtype, some name, some content =>
        .ok (change_content_h domain freshId defaultTtl zone rtype name content)
      | _, _, _ => .ok (zone, [], false)

/-- Equality of embedded operation results is decidable. -/
instance instDecEqExcept {ε α : Type} [DecidableEq ε] [DecidableEq α] :
    DecidableEq (Except ε α) := fun a b =>
  match a, b with
  | .error e1, .error e2 =>
    if h : e1 = e2 then isTrue (by rw [h]) else isFalse (fun hc => h (Except.error.inj hc))
  | .ok v1, .ok v2 =>
    if h : v1 = v2 then isTrue (by rw [h]) else isFalse (fun hc => h (Except.ok.inj hc))
  | .error _, .ok _ => isFalse (fun hc => Except.noConfusion hc)
  | .ok _, .error _ => isFalse (fun hc => Except.noConfusion hc)

/-- Outcome of one vendor HTTP call, passed to the embedded operation:
`.ok` carries the parsed body, `.err` the non-2xx status code on which
`raise_for_status` raised. -/
inductive HttpResp (α : Type)
  | ok (body : α)
  | err (status : Nat)
deriving DecidableEq

/-- Error taxonomy observable from the embedded `authenticate` paths.
`lexiconNoZone` is hetzner's `LexiconError("There is no zone for ...")`;
`httpError` is a plain propagated `requests.HTTPError`. -/
inductive LexErr
  | authenticationError
  | lexiconNoZone
  | lexiconWrapped (status : Nat)
  | httpError (status : Nat)
deriving DecidableEq

/-- hetzner `Provider._fetch_zone` / `authenticate`: the zone id on success;
401 becomes AuthenticationError, 404 becomes a LexiconError about the
missing zone, any other failure a wrapped LexiconError. -/
def authenticate_h (resp : HttpResp Str) : Except LexErr Str :=
  match resp with
  | .ok zoneId => .ok zoneId
  | .err s =>
    if s = 401 then .error .authenticationError
    else if s = 404 then .error .lexiconNoZone
    else .error (.lexiconWrapped s)

/-- Python `str.lower()`. -/
def pyLower (s : Str) : Str := s.map Char.toLower

/-- scaleway `authenticate`: `domain_id = domain.lower()` and one GET whose
failure propagates as the raw `requests.HTTPError`, whatever the status. -/
def authenticate_s (domain : Str) (resp : HttpResp Unit) : Except LexErr Str :=
  match resp with
  | .ok _ => .ok (pyLower domain)
  | .err s => .error (.httpError s)

/-- devnomads `authenticate` via `zone_data`: `domain_id = domain` and one
GET whose failure propagates as the raw `requests.HTTPError`. -/
def authenticate_d (domain : Str) (resp : HttpResp (List DRRSet)) :
    Except LexErr Str :=
  match resp with
  | .ok _ => .ok domain
  | .err s => .error (.httpError s)

section SplitLemmas

/-- Splitting on a character that the prefix avoids isolates the prefix. -/
theorem splitOn_append_of_not_mem {c : Char} {a : Str} (ha : c ∉ a) (b : Str) :
    (a ++ c :: b).splitOn c = a :: b.splitOn c := by
  unfold List.splitOn
  apply List.splitOnP_first
  · intro x hx
    simp only [beq_iff_eq]
    intro h
    exact ha (h ▸ hx)
  · simp

/-- Splitting a string that avoids the delimiter returns the string whole. -/
theorem splitOn_eq_single {c : Char} {a : Str} (ha : c ∉ a) :
    a.splitOn c = [a] := by
  unfold List.splitOn
  apply List.splitOnP_eq_single
  intro x hx
  simp only [beq_iff_eq]
  intro h
  exact ha (h ▸ hx)

/-- Rejoining the `=`-segments with `=` recovers the original string. -/
theorem intercalate_splitOn_eq (c : Char) (s : Str) :
    List.intercalate [c] (s.splitOn c) = s :=
  List.intercalate_splitOn s c

end SplitLemmas

/-- C1: the identifier round-trip fails as soon as the content contains a
slash, because `_parse_identifier` splits on every `/` and keeps only
`parts[1]`: the identifier "A/www=a/b" parses to content "a", losing "/b". -/
theorem identifier_roundtrip_cx :
    parse_identifier (make_identifier (txt "A") (txt "www") (txt "a/b")) ≠
      (txt "A", txt "www", txt "a/b") := by
  decide

/-- Parsing inverts making an identifier when the components avoid the
delimiters misread by `_parse_identifier`. -/
theorem parse_make_eq (rtype name content : Str)
    (hr : '/' ∉ rtype) (hn : '/' ∉ name) (hne : '=' ∉ name) (hc : '/' ∉ content) :
    parse_identifier (make_identifier rtype name content) = (rtype, name, content) := by
  unfold make_identifier parse_identifier
  have hnc : '/' ∉ name ++ '=' :: content := by
    intro h
    rcases List.mem_append.mp h with h1 | h1
    · exact hn h1
    · rcases List.mem_cons.mp h1 with h2 | h2
      · exact absurd h2 (by decide)
      · exact hc h2
  rw [splitOn_append_of_not_mem hr, splitOn_eq_single hnc]
  simp only [List.headD_cons, List.getD_cons_succ, List.getD_cons_zero]
  rw [splitOn_append_of_not_mem hne]
  simp only [List.headD_cons, List.tail_cons]
  rw [intercalate_splitOn_eq]

/-- C1 (amended): parsing a synthesized identifier recovers the triple exactly
provided the rtype, name and content contain no `/` and the name contains no
`=`; the content may itself contain `=`. -/
theorem identifier_roundtrip (rtype name content : Str)
    (hr : '/' ∉ rtype) (hn : '/' ∉ name) (hne : '=' ∉ name) (hc : '/' ∉ content) :
    parse_identifier (make_identifier rtype name content) = (rtype, name, content) :=
  parse_make_eq rtype name content hr hn hne hc

/-- C1 witness: the amended round-trip, evaluated where the content contains
an embedded `=`. -/
theorem identifier_roundtrip_witness :
    parse_identifier (make_identifier (txt "TXT") (txt "www") (txt "k=v=w")) =
      (txt "TXT", txt "www", txt "k=v=w") :=
  identifier_roundtrip (txt "TXT") (txt "www") (txt "k=v=w")
    (by decide) (by decide) (by decide) (by decide)

section StripLemmas

/-- Dropping while a predicate never holds is the identity. -/
theorem dropWhile_eq_self {p : Char → Bool} {l : Str} (h : ∀ x ∈ l, p x = false) :
    l.dropWhile p = l := by
  cases l with
  | nil => rfl
  | cons c cs =>
    rw [List.dropWhile_cons, h c (List.mem_cons_self c cs)]
    simp

/-- Stripping quotes from a quote-wrapped quote-free string recovers it. -/
theorem stripChar_wrap {s : Str} (hq : '"' ∉ s) :
    stripChar '"' ('"' :: s ++ ['"']) = s := by
  have hdropsfx : (s ++ ['"']).dropWhile (· = '"') = s ++ ['"'] ∨ s = [] := by
    cases s with
    | nil => exact Or.inr rfl
    | cons c cs =>
      have hc : c ≠ '"' := fun h => hq (h ▸ List.mem_cons_self c cs)
      left
      rw [List.cons_append, List.dropWhile_cons]
      simp [hc]
  unfold stripChar lstripChar rstripChar
  have h0 : ('"' :: s ++ ['"']).dropWhile (· = '"') = (s ++ ['"']).dropWhile (· = '"') := by
    rw [List.cons_append, List.dropWhile_cons]
    simp
  rw [h0]
  rcases hdropsfx with h1 | h1
  · rw [h1, List.reverse_append]
    have h2 : (['"'] : Str).reverse ++ s.reverse = '"' :: s.reverse := by simp
    rw [h2, List.dropWhile_cons]
    have h3 : s.reverse.dropWhile (· = '"') = s.reverse := by
      apply dropWhile_eq_self
      intro x hx
      simp only [decide_eq_false_iff_not]
      intro h
      exact hq (h ▸ List.mem_reverse.mp hx)
    simp [h3]
  · subst h1
    decide

/-- Helper: on nonempty quote-free content the devnomads TXT write side wraps
the value in one pair of quotes. -/
theorem clean_content_txt {domain s : Str} (hne : s ≠ []) (hq : '"' ∉ s) :
    clean_content domain (txt "TXT") s = some ('"' :: s ++ ['"']) := by
  cases s with
  | nil => exact absurd rfl hne
  | cons c cs =>
    have hc : c ≠ '"' := fun h => hq (h ▸ List.mem_cons_self c cs)
    have hlast : ('"' :: c :: cs).getLastD ' ' ≠ '"' := by
      rw [List.getLastD_cons, List.getLastD_cons]
      intro h
      exact hq (h ▸ List.getLastD_mem_cons cs c)
    unfold clean_content
    rw [if_pos (Or.inl rfl)]
    simp only [hc, ne_eq, not_false_iff, if_true, hlast]

end StripLemmas

section SplitWsLemmas

/-- On whitespace-free input the splitter returns the single full fragment. -/
theorem splitWsAux_no_ws (s : Str) (h : ∀ c ∈ s, c.isWhitespace = false) :
    ∀ acc : Str, splitWsAux acc s =
      if acc.reverse ++ s = [] then [] else [acc.reverse ++ s] := by
  induction s with
  | nil =>
    intro acc
    simp only [splitWsAux, List.append_nil]
    by_cases hacc : acc = []
    · subst hacc; rfl
    · have hr : acc.reverse ≠ [] := by simpa using hacc
      simp [hacc, hr]
  | cons c cs ih =>
    intro acc
    have hc : c.isWhitespace = false := h c (List.mem_cons_self c cs)
    have hcs : ∀ x ∈ cs, x.isWhitespace = false :=
      fun x hx => h x (List.mem_cons_of_mem c hx)
    simp only [splitWsAux, hc, Bool.false_eq_true, if_false]
    rw [ih hcs (c :: acc)]
    have hrw : (c :: acc).reverse ++ cs = acc.reverse ++ c :: cs := by simp
    rw [hrw]

/-- Python `s.split()` of a nonempty whitespace-free string is `[s]`. -/
theorem splitWs_no_ws {s : Str} (hne : s ≠ []) (h : ∀ c ∈ s, c.isWhitespace = false) :
    splitWs s = [s] := by
  unfold splitWs
  rw [splitWsAux_no_ws s h []]
  simp [hne]

/-- The quote-pair replacement leaves a string alone whose only quote is one
appended at the very end. -/
theorem replaceQQ_append_quote {s : Str} (hq : '"' ∉ s) :
    replaceQQ (s ++ ['"']) = s ++ ['"'] := by
  induction s with
  | nil => rfl
  | cons c cs ih =>
    have hc : c ≠ '"' := fun h => hq (h ▸ List.mem_cons_self c cs)
    have hcs : '"' ∉ cs := fun h => hq (List.mem_cons_of_mem c h)
    cases cs with
    | nil =>
      show replaceQQ [c, '"'] = [c, '"']
      rw [replaceQQ]
      simp only [hc, false_and, if_false]
      have h1 : replaceQQ ['"'] = ['"'] := by decide
      rw [h1]
    | cons d ds =>
      rw [List.cons_append, List.cons_append, replaceQQ]
      simp only [hc, false_and, if_false]
      rw [← List.cons_append, ih hcs]

/-- The quote-pair replacement leaves a quote-wrapped quote-free nonempty
string alone: its two quotes are never adjacent. -/
theorem replaceQQ_wrap {s : Str} (hne : s ≠ []) (hq : '"' ∉ s) :
    replaceQQ ('"' :: s ++ ['"']) = '"' :: s ++ ['"'] := by
  cases s with
  | nil => exact absurd rfl hne
  | cons c cs =>
    have hc : c ≠ '"' := fun h => hq (h ▸ List.mem_cons_self c cs)
    rw [List.cons_append, List.cons_append, replaceQQ]
    simp only [hc, and_false, if_false]
    rw [← List.cons_append, replaceQQ_append_quote hq]

end SplitWsLemmas

/-- C2 counterexample: the TXT transport round-trip is not the identity in any
of the three providers.  devnomads turns the content `"a` into `a` (the write
side only appends the missing closing quote while the read side strips all
outer quotes); hetzner collapses the double space of `a  b` to a single space
(Python `str.split()` discards empty fragments); scaleway decodes the stored
value `"a"` — which its write side had passed through verbatim — to `a`. -/
theorem txt_roundtrip_cx :
    unclean_content (txt "example.com") (txt "TXT")
        ((clean_content (txt "example.com") (txt "TXT") (txt "\"a")).getD []) ≠ txt "\"a" ∧
    hetzner_read_value (txt "TXT") (record_from_value (txt "TXT") (txt "a  b")) ≠ txt "a  b" ∧
    decode_content (txt "TXT") (txt "\"a\"") ≠ txt "\"a\"" := by
  refine ⟨by decide, by decide, by decide⟩

/-- C2 (amended): for every nonempty content without double quotes and without
whitespace the TXT transport round-trip is the identity in each provider:
devnomads `_unclean_content` inverts `_clean_content`, the hetzner read-side
transform inverts `_record_from`, and scaleway `_decode_content` leaves the
verbatim-stored value unchanged. -/
theorem txt_roundtrip (domain s : Str) (hne : s ≠ []) (hq : '"' ∉ s)
    (hw : ∀ c ∈ s, c.isWhitespace = false) :
    Option.map (unclean_content domain (txt "TXT")) (clean_content domain (txt "TXT") s) =
        some s ∧
    hetzner_read_value (txt "TXT") (record_from_value (txt "TXT") s) = s ∧
    decode_content (txt "TXT") s = s := by
  refine ⟨?_, ?_, ?_⟩
  · rw [clean_content_txt hne hq, Option.map_some']
    unfold unclean_content
    rw [if_pos (Or.inl rfl), stripChar_wrap hq]
  · rw [record_from_value, if_pos rfl, splitWs_no_ws hne hw]
    simp only [List.map_cons, List.map_nil, List.flatten_cons, List.flatten_nil,
      List.append_nil]
    rw [hetzner_read_value]
    simp only [ne_eq, not_true_eq_false, if_false]
    rw [replaceQQ_wrap hne hq]
    have h1 : stripChar '"' ('"' :: s ++ ['"']) = s := stripChar_wrap hq
    unfold stripChar at h1
    exact h1
  · cases s with
    | nil => exact absurd rfl hne
    | cons c cs =>
      have hc : c ≠ '"' := fun h => hq (h ▸ List.mem_cons_self c cs)
      unfold decode_content
      simp [hc]

/-- C2 witness: the amended round-trip evaluated at the content `abc`. -/
theorem txt_roundtrip_witness :
    Option.map (unclean_content (txt "example.com") (txt "TXT"))
        (clean_content (txt "example.com") (txt "TXT") (txt "abc")) = some (txt "abc") ∧
    hetzner_read_value (txt "TXT") (record_from_value (txt "TXT") (txt "abc")) = txt "abc" ∧
    decode_content (txt "TXT") (txt "abc") = txt "abc" :=
  txt_roundtrip (txt "example.com") (txt "abc") (by decide) (by decide) (by decide)

/-- C5: devnomads `delete_record` with a selector that matches no rrset does
not return true as a no-op: the loop over the zone never binds `update_data`
and the function aborts with `NameError` — here evaluated on the empty zone
with rtype `A` and name `www`, where the spec requires a successful no-op. -/
theorem delete_missing_raises_d :
    delete_record_d (txt "example.com") [] none (some (txt "A")) (some (txt "www")) none =
      .error .nameError := by
  decide

/-- C7 counterexample: with an existing rrset of ttl 300 and an explicit ttl
override of 42, the devnomads create mutation still carries ttl 300, not the
override. -/
theorem create_ttl_override_cx :
    (create_request_d (txt "example.com") (some 42)
        [⟨txt "www.example.com.", txt "A", 300, [⟨txt "1.1.1.1", false⟩]⟩]
        (txt "A") (txt "www") (txt "2.2.2.2")).map DPatch.ttl = some 300 ∧
    (some 300 : Option Nat) ≠ some 42 := by
  exact ⟨by decide, by decide⟩

/-- C7 (amended): devnomads `create_record` carries the existing rrset ttl
forward unconditionally — an explicit ttl override is ignored whenever the
rrset exists and applies (against default 600) only when it does not;
hetzner `create_record` passes the override through `_get_ttl` (or null,
meaning keep) in the issued add_records action. -/
theorem create_ttl_carry (domain : Str) (ttlOpt : Option Nat) (zone : List DRRSet)
    (rtype name content : Str) :
    (∀ rrset, find_rrset_d zone (fqdn_name domain name) rtype = some rrset →
      (create_request_d domain ttlOpt zone rtype name content).map DPatch.ttl =
        (clean_content domain rtype content).map (fun _ => rrset.ttl)) ∧
    (find_rrset_d zone (fqdn_name domain name) rtype = none →
      (create_request_d domain ttlOpt zone rtype name content).map DPatch.ttl =
        (clean_content domain rtype content).map (fun _ => pyOrNat ttlOpt 600)) ∧
    (∀ (freshId : Str) (defaultTtl : Nat) (hzone : List HRRSet),
      list_records_h domain hzone (some rtype) (some name) (some content) = [] →
      (create_record_h domain ttlOpt freshId defaultTtl hzone rtype name content).2.1 =
        [.addRecords (to_rrset_name domain name) rtype (h_get_ttl ttlOpt)
          [⟨record_from_value rtype content⟩]]) := by
  refine ⟨?_, ?_, ?_⟩
  · intro rrset hfind
    unfold create_request_d
    cases clean_content domain rtype content with
    | none => rfl
    | some cv => simp [hfind]
  · intro hfind
    unfold create_request_d
    cases clean_content domain rtype content with
    | none => rfl
    | some cv => simp [hfind]
  · intro freshId defaultTtl hzone hnone
    unfold create_record_h
    rw [hnone]
    simp

/-- C7 witness: the amended devnomads statement evaluated where the override
42 loses against the existing ttl 300. -/
theorem create_ttl_carry_witness :
    (create_request_d (txt "example.com") (some 42)
        [⟨txt "www.example.com.", txt "A", 300, [⟨txt "1.1.1.1", false⟩]⟩]
        (txt "A") (txt "www") (txt "2.2.2.2")).map DPatch.ttl =
      (clean_content (txt "example.com") (txt "A") (txt "2.2.2.2")).map (fun _ => 300) :=
  (create_ttl_carry (txt "example.com") (some 42)
      [⟨txt "www.example.com.", txt "A", 300, [⟨txt "1.1.1.1", false⟩]⟩]
      (txt "A") (txt "www") (txt "2.2.2.2")).1
    ⟨txt "www.example.com.", txt "A", 300, [⟨txt "1.1.1.1", false⟩]⟩ (by decide)

/-- C9 counterexample: a 401 during scaleway authenticate surfaces as the
raw HTTP error rather than AuthenticationError, and a missing hetzner zone
(404) surfaces as a generic LexiconError — no NotFoundError is raised by
any of these providers. -/
theorem authenticate_cx :
    authenticate_s (txt "example.com") (.err 401) = .error (.httpError 401) ∧
    (.error (.httpError 401) : Except LexErr Str) ≠ .error .authenticationError ∧
    authenticate_h (.err 404) = .error .lexiconNoZone ∧
    (.error .lexiconNoZone : Except LexErr Str) ≠ .error (.httpError 404) := by
  refine ⟨by decide, by decide, by decide, by decide⟩

/-- C9 (amended): hetzner authenticate stores the fetched zone id, raises
AuthenticationError on 401 and a plain LexiconError when no zone matches
(404, wrapping every other status); scaleway and devnomads store the domain
itself and propagate the raw HTTP error for every failure status, 401
included. -/
theorem authenticate_errors (domain zoneId : Str) (body : List DRRSet) (s : Nat) :
    authenticate_h (.ok zoneId) = .ok zoneId ∧
    authenticate_h (.err 401) = .error .authenticationError ∧
    authenticate_h (.err 404) = .error .lexiconNoZone ∧
    (s ≠ 401 → s ≠ 404 → authenticate_h (.err s) = .error (.lexiconWrapped s)) ∧
    authenticate_s domain (.ok ()) = .ok (pyLower domain) ∧
    authenticate_s domain (.err s) = .error (.httpError s) ∧
    authenticate_d domain (.ok body) = .ok domain ∧
    authenticate_d domain (.err s) = .error (.httpError s) := by
  refine ⟨rfl, by decide, by decide, ?_, rfl, rfl, rfl, rfl⟩
  intro h401 h404
  simp only [authenticate_h, if_neg h401, if_neg h404]

/-- C9 witness: the amended statement evaluated at status 500. -/
theorem authenticate_errors_witness :
    authenticate_h (.ok (txt "z1")) = .ok (txt "z1") ∧
    authenticate_h (.err 401) = .error .authenticationError ∧
    authenticate_h (.err 404) = .error .lexiconNoZone ∧
    ((500 : Nat) ≠ 401 → (500 : Nat) ≠ 404 →
      authenticate_h (.err 500) = .error (.lexiconWrapped 500)) ∧
    authenticate_s (txt "Ex.com") (.ok ()) = .ok (pyLower (txt "Ex.com")) ∧
    authenticate_s (txt "Ex.com") (.err 500) = .error (.httpError 500) ∧
    authenticate_d (txt "Ex.com") (.ok []) = .ok (txt "Ex.com") ∧
    authenticate_d (txt "Ex.com") (.err 500) = .error (.httpError 500) :=
  authenticate_errors (txt "Ex.com") (txt "z1") [] 500

/-- Two distinct members force a list length of at least two. -/
theorem two_le_length_of_mem_ne {l : List RecordView} {a b : RecordView}
    (ha : a ∈ l) (hb : b ∈ l) (hne : a ≠ b) : 2 ≤ l.length := by
  cases l with
  | nil => cases ha
  | cons x t =>
    cases t with
    | nil =>
      rcases List.mem_singleton.mp ha with rfl
      rcases List.mem_singleton.mp hb with rfl
      exact absurd rfl hne
    | cons y u =>
      simp only [List.length_cons]
      omega

/-- C10: scaleway `update_record` without an identifier collects candidates
with `list_records(None, name)` — filtering by name only — so two records
sharing the full name with different rtypes yield at least two candidates
and the ambiguity error is raised, even though the supplied rtype together
with the name matches exactly one record. -/
theorem update_ambiguous_s (domain : Str) (ttlOpt : Option Nat) (zone : List SRecord)
    (rtype nm : Str) (contentA : Option Str) (v1 v2 : RecordView)
    (h1 : v1 ∈ list_records_s domain zone none (some nm) none)
    (h2 : v2 ∈ list_records_s domain zone none (some nm) none)
    (hne : v1.rtype ≠ v2.rtype)
    (hexact : (list_records_s domain zone (some rtype) (some nm) none).length = 1) :
    update_record_s domain ttlOpt zone none (some rtype) (some nm) contentA =
      .error .ambiguous := by
  have hlen : 2 ≤ (list_records_s domain zone none (some nm) none).length :=
    two_le_length_of_mem_ne h1 h2 (fun h => hne (h ▸ rfl))
  unfold update_record_s
  cases hL : list_records_s domain zone none (some nm) none with
  | nil =>
    rw [hL] at hlen
    simp at hlen
  | cons x t =>
    cases t with
    | nil =>
      rw [hL] at hlen
      simp at hlen
    | cons y u =>
      simp only [hL]

/-- C10 witness: an A and a TXT record both named www make the no-identifier
update ambiguous although rtype A plus the name matches exactly one. -/
theorem update_ambiguous_s_witness :
    update_record_s (txt "example.com") none
        [⟨txt "r1", txt "www", txt "A", txt "1.1.1.1", 300⟩,
         ⟨txt "r2", txt "www", txt "TXT", txt "x", 300⟩]
        none (some (txt "A")) (some (txt "www")) (some (txt "2.2.2.2")) =
      .error .ambiguous :=
  update_ambiguous_s (txt "example.com") none
    [⟨txt "r1", txt "www", txt "A", txt "1.1.1.1", 300⟩,
     ⟨txt "r2", txt "www", txt "TXT", txt "x", 300⟩]
    (txt "A") (txt "www") (some (txt "2.2.2.2"))
    ⟨txt "r1", txt "A", txt "www.example.com", txt "1.1.1.1", 300⟩
    ⟨txt "r2", txt "TXT", txt "www.example.com", txt "x", 300⟩
    (by decide) (by decide) (by decide) (by decide)

/-- A failing hetzner `_find_record` always fails with StopIteration: the
bare `next(iter([...]))` has no default, so the `record is None` checks
after it are unreachable. -/
theorem find_record_h_error {domain : Str} {zone : List HRRSet} {identifier : Str}
    {contentF : Option Str} {e : HErr}
    (h : find_record_h domain zone identifier contentF = .error e) : e = .stopIteration := by
  unfold find_record_h at h
  split at h
  · exact (Except.error.inj h).symm
  · exact Except.noConfusion h

/-- hetzner `delete_record` called with an identifier never raises the
selector configuration error. -/
theorem delete_record_h_some_ne_selector (domain freshId : Str) (defaultTtl : Nat)
    (zone : List HRRSet) (ident : Str) (rtypeA nameA contentA : Option Str) :
    delete_record_h domain freshId defaultTtl zone (some ident) rtypeA nameA contentA ≠
      .error .selectorError := by
  unfold delete_record_h
  rw [if_neg (by simp)]
  cases hf : find_record_h domain zone ident none with
  | error e =>
    simp only [hf, Except.map]
    intro hc
    have he := find_record_h_error hf
    subst he
    exact absurd (Except.error.inj hc) (by decide)
  | ok r =>
    simp only [hf, Except.map]
    cases contentA with
    | none => simp
    | some c => simp

/-- hetzner `_move_record` never raises the selector configuration error
(its own guard raises a different LexiconError). -/
theorem move_record_h_ne_selector (domain : Str) (ttlOpt : Option Nat) (freshId : Str)
    (defaultTtl : Nat) (zone : List HRRSet) (ident content : Str)
    (toRtype toName : Option Str) :
    move_record_h domain ttlOpt freshId defaultTtl zone ident content toRtype toName ≠
      .error .selectorError := by
  unfold move_record_h
  by_cases h0 : toRtype = none ∧ toName = none
  · rw [if_pos h0]
    simp
  · rw [if_neg h0]
    cases hf : find_record_h domain zone ident (some content) with
    | error e =>
      simp only [hf]
      intro hc
      have he := find_record_h_error hf
      subst he
      exact absurd (Except.error.inj hc) (by decide)
    | ok original =>
      simp only [hf]
      cases hd : delete_record_h domain freshId defaultTtl
          (create_record_h domain ttlOpt freshId defaultTtl zone
            (toRtype.getD original.rtype) (toName.getD original.name) content).1
          (some ident) none none (some content) with
      | error e =>
        simp only [hd]
        intro hc
        rw [Except.error.inj hc] at hd
        exact delete_record_h_some_ne_selector _ _ _ _ _ _ _ _ hd
      | ok res =>
        simp only [hd]
        simp

/-- C8 counterexample: scaleway `update_record` with neither an identifier
nor rtype nor name does not fail with a configuration error: on a zone with
a single record the name-only lookup (name `None` matches everything)
resolves that record and the set mutation is issued. -/
theorem update_selector_cx :
    update_record_s (txt "example.com") none
        [⟨txt "r1", txt "www", txt "A", txt "1.1.1.1", 300⟩] none none none none =
      .ok ⟨txt "r1", none, none, none, 3600⟩ := by
  decide

/-- C8 (amended): hetzner `update_record` fails with the configuration error
exactly when the caller supplies neither an identifier nor both rtype and
name, and then no mutation is issued (the error is the very first check);
the other providers do not implement this contract — scaleway falls back to
a name-only candidate lookup that can proceed with no selector at all, and
devnomads delegates to `delete_record(identifier)` ignoring rtype/name. -/
theorem update_selector_h (domain : Str) (ttlOpt : Option Nat) (freshId : Str)
    (defaultTtl : Nat) (zone : List HRRSet)
    (identifier rtypeA nameA contentA : Option Str) :
    update_record_h domain ttlOpt freshId defaultTtl zone identifier rtypeA nameA contentA =
        .error .selectorError ↔
      identifier = none ∧ (rtypeA = none ∨ nameA = none) := by
  unfold update_record_h
  by_cases hsel : identifier = none ∧ (rtypeA = none ∨ nameA = none)
  · rw [if_pos hsel]
    simp [hsel]
  · rw [if_neg hsel]
    constructor
    · intro hc
      exfalso
      cases identifier with
      | some i =>
        cases contentA with
        | some c =>
          exact move_record_h_ne_selector domain ttlOpt freshId defaultTtl zone i c
            rtypeA nameA hc
        | none =>
          cases rtypeA with
          | none => exact Except.noConfusion hc
          | some rt =>
            cases nameA with
            | none => exact Except.noConfusion hc
            | some n => exact Except.noConfusion hc
      | none =>
        have h2 : ¬(rtypeA = none ∨ nameA = none) := fun h => hsel ⟨rfl, h⟩
        cases rtypeA with
        | none => exact h2 (Or.inl rfl)
        | some rt =>
          cases nameA with
          | none => exact h2 (Or.inr rfl)
          | some n =>
            cases contentA with
            | some c => exact Except.noConfusion hc
            | none => exact Except.noConfusion hc
    · intro h
      exact absurd h hsel

/-- scaleway `list_records` with all three filters distributes over zone
concatenation. -/
theorem list_records_s_append (domain : Str) (z1 z2 : List SRecord)
    (rtype name content : Str) :
    list_records_s domain (z1 ++ z2) (some rtype) (some name) (some content) =
      list_records_s domain z1 (some rtype) (some name) (some content) ++
      list_records_s domain z2 (some rtype) (some name) (some content) := by
  unfold list_records_s filter_records_s
  rw [if_neg (by simp), if_neg (by simp), if_neg (by simp)]
  rw [List.map_append, List.filter_append]

/-- A freshly added scaleway record whose content survives `_decode_content`
unchanged matches the rtype/name/content filter triple it was created
from. -/
theorem list_records_s_single_match (domain : Str) (f : Str) (rtype name content : Str)
    (ttl : Nat) (hdec : decode_content rtype content = content) :
    list_records_s domain [⟨f, name, rtype, content, ttl⟩]
        (some rtype) (some name) (some content) =
      [⟨f, rtype, full_name domain name, content, ttl⟩] := by
  unfold list_records_s filter_records_s s_record_view
  rw [if_neg (by simp)]
  simp [hdec]

/-- C3 (amended): provided the content is left unchanged by the provider's
read-side decoding and the zone initially holds at most one matching record,
scaleway `create_record` is idempotent: the second identical call returns
true and leaves the zone exactly as it was (no value added), and exactly one
record matching (rtype, name, content) is visible to `list_records`
afterwards. -/
theorem create_idempotent_s (domain : Str) (ttlOpt : Option Nat) (f1 f2 : Str)
    (zone : List SRecord) (rtype name content : Str)
    (hdec : decode_content rtype content = content)
    (hcount : (list_records_s domain zone (some rtype) (some name) (some content)).length ≤ 1) :
    create_record_s domain ttlOpt f2
        (create_record_s domain ttlOpt f1 zone rtype name content).1 rtype name content =
      ((create_record_s domain ttlOpt f1 zone rtype name content).1, true) ∧
    (create_record_s domain ttlOpt f1 zone rtype name content).2 = true ∧
    (list_records_s domain (create_record_s domain ttlOpt f1 zone rtype name content).1
        (some rtype) (some name) (some content)).length = 1 := by
  by_cases hL : list_records_s domain zone (some rtype) (some name) (some content) = []
  · have h1 : create_record_s domain ttlOpt f1 zone rtype name content =
        (zone ++ [⟨f1, name, rtype, content, pyOrNat ttlOpt 3600⟩], true) := by
      unfold create_record_s
      rw [if_neg (by simp [hL])]
    have hlist : list_records_s domain
        (zone ++ [⟨f1, name, rtype, content, pyOrNat ttlOpt 3600⟩])
        (some rtype) (some name) (some content) =
        [⟨f1, rtype, full_name domain name, content, pyOrNat ttlOpt 3600⟩] := by
      rw [list_records_s_append, hL,
        list_records_s_single_match domain f1 rtype name content _ hdec]
      rfl
    refine ⟨?_, ?_, ?_⟩
    · rw [h1]
      unfold create_record_s
      rw [if_pos (by simp [hlist])]
    · rw [h1]
    · rw [h1, hlist]
      rfl
  · have h1 : create_record_s domain ttlOpt f1 zone rtype name content = (zone, true) := by
      unfold create_record_s
      rw [if_pos hL]
    refine ⟨?_, ?_, ?_⟩
    · rw [h1]
      unfold create_record_s
      rw [if_pos hL]
    · rw [h1]
    · rw [h1]
      show (list_records_s domain zone (some rtype) (some name) (some content)).length = 1
      have hpos := List.length_pos.mpr hL
      omega

/-- C3 counterexample: creating the TXT content `"x"` twice on the empty
scaleway zone stores two records — the duplicate check compares the decoded
stored value `x` against the raw argument `"x"` and never matches — and
afterwards not one but zero matching records are visible to
`list_records`. -/
theorem create_idempotent_cx :
    (create_record_s (txt "example.com") none (txt "f2")
        (create_record_s (txt "example.com") none (txt "f1") [] (txt "TXT") (txt "www")
          (txt "\"x\"")).1 (txt "TXT") (txt "www") (txt "\"x\"")).1.length = 2 ∧
    (list_records_s (txt "example.com")
        (create_record_s (txt "example.com") none (txt "f2")
          (create_record_s (txt "example.com") none (txt "f1") [] (txt "TXT") (txt "www")
            (txt "\"x\"")).1 (txt "TXT") (txt "www") (txt "\"x\"")).1
        (some (txt "TXT")) (some (txt "www")) (some (txt "\"x\""))).length = 0 := by
  exact ⟨by decide, by decide⟩

/-- C3 witness: the amended idempotence at an ordinary A record on the
empty zone. -/
theorem create_idempotent_s_witness :
    create_record_s (txt "example.com") none (txt "f2")
        (create_record_s (txt "example.com") none (txt "f1") [] (txt "A") (txt "www")
          (txt "1.2.3.4")).1 (txt "A") (txt "www") (txt "1.2.3.4") =
      ((create_record_s (txt "example.com") none (txt "f1") [] (txt "A") (txt "www")
          (txt "1.2.3.4")).1, true) ∧
    (create_record_s (txt "example.com") none (txt "f1") [] (txt "A") (txt "www")
        (txt "1.2.3.4")).2 = true ∧
    (list_records_s (txt "example.com")
        (create_record_s (txt "example.com") none (txt "f1") [] (txt "A") (txt "www")
          (txt "1.2.3.4")).1
        (some (txt "A")) (some (txt "www")) (some (txt "1.2.3.4"))).length = 1 :=
  create_idempotent_s (txt "example.com") none (txt "f1") (txt "f2") [] (txt "A")
    (txt "www") (txt "1.2.3.4") (by decide) (by decide)

/-- Looking an rrset key up among the rrsets from which exactly that key was
filtered away finds nothing. -/
theorem find_rrset_d_rest (zone : List DRRSet) (N T : Str) :
    find_rrset_d (zone.filter (fun rr => decide (¬(rr.name = N ∧ rr.rtype = T)))) N T =
      none := by
  unfold find_rrset_d
  rw [List.find?_eq_none]
  intro x hx hp
  rw [decide_eq_true_eq] at hp
  have hm := (List.mem_filter.mp hx).2
  rw [decide_eq_true_eq] at hm
  exact hm hp

/-- C4: devnomads `delete_record` with content removes exactly the values
whose transport form equals `_clean_content(rrset.type, content)` from the
matched rrset: when no value remains the rrset resource is gone from the
zone (the issued REPLACE carries an empty value list, which the server
treats as deletion), otherwise the rrset survives with precisely the
remaining values and its ttl intact. -/
theorem delete_by_content_d (domain : Str) (zone : List DRRSet)
    (rtype name content : Str) (rrset : DRRSet) (cv : Str)
    (hfind : zone.find? (fun rr =>
        decide (rr.rtype = rtype ∧ fqdn_name domain rr.name = fqdn_name domain name)) =
      some rrset)
    (hclean : clean_content domain rrset.rtype content = some cv)
    (hmem : cv ∈ rrset.records.map DRecord.content) :
    ∃ zone2,
      delete_record_d domain zone none (some rtype) (some name) (some content) =
        .ok (zone2, true) ∧
      (rrset.records.filter (fun r => decide (r.content ≠ cv)) = [] →
        find_rrset_d zone2 rrset.name rrset.rtype = none) ∧
      (rrset.records.filter (fun r => decide (r.content ≠ cv)) ≠ [] →
        find_rrset_d zone2 rrset.name rrset.rtype =
          some ⟨rrset.name, rrset.rtype, rrset.ttl,
            rrset.records.filter (fun r => decide (r.content ≠ cv))⟩) := by
  refine ⟨apply_patch_d zone
    ⟨rrset.name, rrset.rtype, rrset.ttl,
     rrset.records.filter (fun r => decide (r.content ≠ cv)), .REPLACE⟩, ?_, ?_, ?_⟩
  · unfold delete_record_d
    simp only [hfind, hclean]
  · intro hF
    unfold apply_patch_d
    simp only [hF, if_pos rfl]
    exact find_rrset_d_rest zone rrset.name rrset.rtype
  · intro hF
    unfold apply_patch_d
    simp only [hF, if_false]
    unfold find_rrset_d
    rw [List.find?_append]
    have h1 := find_rrset_d_rest zone rrset.name rrset.rtype
    unfold find_rrset_d at h1
    rw [h1]
    simp

/-- C4 witness: deleting `1.1.1.1` out of an A rrset holding `1.1.1.1` and
`2.2.2.2` leaves the rrset with exactly `2.2.2.2`. -/
theorem delete_by_content_d_witness :
    ∃ zone2,
      delete_record_d (txt "example.com")
          [⟨txt "www.example.com.", txt "A", 300,
            [⟨txt "1.1.1.1", false⟩, ⟨txt "2.2.2.2", false⟩]⟩]
          none (some (txt "A")) (some (txt "www")) (some (txt "1.1.1.1")) =
        .ok (zone2, true) ∧
      (List.filter (fun r => decide (r.content ≠ txt "1.1.1.1"))
          [DRecord.mk (txt "1.1.1.1") false, DRecord.mk (txt "2.2.2.2") false] = [] →
        find_rrset_d zone2 (txt "www.example.com.") (txt "A") = none) ∧
      (List.filter (fun r => decide (r.content ≠ txt "1.1.1.1"))
          [DRecord.mk (txt "1.1.1.1") false, DRecord.mk (txt "2.2.2.2") false] ≠ [] →
        find_rrset_d zone2 (txt "www.example.com.") (txt "A") =
          some ⟨txt "www.example.com.", txt "A", 300,
            List.filter (fun r => decide (r.content ≠ txt "1.1.1.1"))
              [DRecord.mk (txt "1.1.1.1") false, DRecord.mk (txt "2.2.2.2") false]⟩) :=
  delete_by_content_d (txt "example.com")
    [⟨txt "www.example.com.", txt "A", 300,
      [⟨txt "1.1.1.1", false⟩, ⟨txt "2.2.2.2", false⟩]⟩]
    (txt "A") (txt "www") (txt "1.1.1.1")
    ⟨txt "www.example.com.", txt "A", 300,
      [⟨txt "1.1.1.1", false⟩, ⟨txt "2.2.2.2", false⟩]⟩
    (txt "1.1.1.1") (by decide) (by decide) (by decide)

/-- Python `rstrip` absorbs one appended strip character. -/
theorem rstripChar_append_cons (c : Char) (l : Str) :
    rstripChar c (l ++ [c]) = rstripChar c l := by
  unfold rstripChar
  rw [List.reverse_append]
  simp [List.dropWhile_cons]

/-- Python `rstrip` leaves a string alone that does not end in the strip
character. -/
theorem rstripChar_eq_self {c : Char} {l : Str} (h : l.getLast? ≠ some c) :
    rstripChar c l = l := by
  unfold rstripChar
  have hdw : l.reverse.dropWhile (· = c) = l.reverse := by
    cases hrev : l.reverse with
    | nil => rfl
    | cons a t =>
      have ha : a ≠ c := by
        intro hac
        apply h
        rw [← List.head?_reverse, hrev, hac]
        rfl
      rw [List.dropWhile_cons, if_neg (by simpa using ha)]
  rw [hdw, List.reverse_reverse]

/-- Python `rstrip` output never ends in the strip character (unless it is
empty). -/
theorem rstripChar_no_trailing (c : Char) (l : Str) :
    (rstripChar c l).getLast? ≠ some c ∨ rstripChar c l = [] := by
  unfold rstripChar
  cases hd : l.reverse.dropWhile (· = c) with
  | nil =>
    right
    simp
  | cons a t =>
    left
    have hhead := List.head?_dropWhile_not (· = c) l.reverse
    rw [hd] at hhead
    simp only [List.head?_cons] at hhead
    rw [List.getLast?_reverse, List.head?_cons]
    intro hsc
    rw [Option.some.inj hsc] at hhead
    simp at hhead

/-- The last element of a cons is the last element of its nonempty tail. -/
theorem getLast?_cons_ne_nil {a : Char} {l : Str} (h : l ≠ []) :
    (a :: l).getLast? = l.getLast? := by
  cases l with
  | nil => exact absurd rfl h
  | cons b t => rw [List.getLast?_cons_cons]

/-- The spec-modelled `full_name` always ends in the domain. -/
theorem full_name_ends (domain name : Str) :
    pyEndsWith (full_name domain name) domain = true := by
  show pyEndsWith (if pyEndsWith (rstripChar '.' name) domain then rstripChar '.' name
      else rstripChar '.' name ++ '.' :: domain) domain = true
  by_cases h : pyEndsWith (rstripChar '.' name) domain = true
  · rw [if_pos h]
    exact h
  · rw [if_neg h]
    unfold pyEndsWith
    rw [List.isSuffixOf_iff_suffix]
    exact ⟨rstripChar '.' name ++ ['.'], by simp⟩

/-- The spec-modelled `full_name` carries no trailing dot when the domain is
nonempty without one. -/
theorem full_name_no_trailing_dot (domain name : Str) (hdomne : domain ≠ [])
    (hdomlast : domain.getLast? ≠ some '.') :
    (full_name domain name).getLast? ≠ some '.' := by
  show (if pyEndsWith (rstripChar '.' name) domain then rstripChar '.' name
      else rstripChar '.' name ++ '.' :: domain).getLast? ≠ some '.'
  have hdot : ('.' :: domain : Str).getLast? ≠ some '.' := by
    rw [getLast?_cons_ne_nil hdomne]
    exact hdomlast
  have happ : (rstripChar '.' name ++ '.' :: domain : Str).getLast? ≠ some '.' := by
    rw [List.getLast?_append]
    obtain ⟨g, hg⟩ := Option.isSome_iff_exists.mp (List.getLast?_isSome.mpr
      (by simp : ('.' :: domain : Str) ≠ []))
    rw [hg, Option.or_some]
    rw [hg] at hdot
    exact hdot
  rcases rstripChar_no_trailing '.' name with hlast | hnil
  · by_cases h : pyEndsWith (rstripChar '.' name) domain = true
    · rw [if_pos h]
      exact hlast
    · rw [if_neg h]
      exact happ
  · rw [hnil]
    have hff : pyEndsWith ([] : Str) domain = false := by
      unfold pyEndsWith
      cases hdom : domain with
      | nil => exact absurd hdom hdomne
      | cons d ds => simp
    rw [if_neg (by simp [hff]), List.nil_append]
    exact hdot

/-- The spec-modelled `full_name` of a dot-terminated already-full name. -/
theorem full_name_append_dot (domain m : Str) (hend : pyEndsWith m domain = true)
    (hlast : m.getLast? ≠ some '.') :
    full_name domain (m ++ ['.']) = m := by
  show (if pyEndsWith (rstripChar '.' (m ++ ['.'])) domain then rstripChar '.' (m ++ ['.'])
      else rstripChar '.' (m ++ ['.']) ++ '.' :: domain) = m
  rw [rstripChar_append_cons, rstripChar_eq_self hlast, if_pos hend]

/-- Normalizing the FQDN form again yields the full name: the spec's
idempotence of name normalization (spec section 4.1). -/
theorem full_name_fqdn (domain name : Str) (hdomne : domain ≠ [])
    (hdomlast : domain.getLast? ≠ some '.') :
    full_name domain (fqdn_name domain name) = full_name domain name := by
  unfold fqdn_name
  exact full_name_append_dot domain (full_name domain name) (full_name_ends domain name)
    (full_name_no_trailing_dot domain name hdomne hdomlast)

/-- devnomads `list_records` with no filters flattens every rrset into its
record views. -/
theorem list_records_d_all (domain : Str) (zone : List DRRSet) :
    list_records_d domain zone none none none =
      some ((zone.map (d_rrset_views domain)).flatten) := by
  unfold list_records_d
  simp [Option.all, List.filter_true]

/-- Views of a zone whose matched rrset was replaced by one holding `recs3`:
no view carries the old decoded content and some view carries the new one. -/
theorem d_update_views (domain : Str) (zone : List DRRSet)
    (rtype name content0 content : Str) (ttl3 : Nat) (recs3 : List DRecord)
    (hdomne : domain ≠ []) (hdomlast : domain.getLast? ≠ some '.')
    (huniq : ∀ rr ∈ zone, rr.rtype = rtype →
      full_name domain rr.name = full_name domain name → rr.name = fqdn_name domain name)
    (habs : ∀ r ∈ recs3, unclean_content domain rtype r.content ≠ content0)
    (hpres : ∃ r ∈ recs3, unclean_content domain rtype r.content = content) :
    (∀ v ∈ ((zone.filter (fun (rr : DRRSet) =>
          decide (¬(rr.name = fqdn_name domain name ∧ rr.rtype = rtype))) ++
        [(⟨fqdn_name domain name, rtype, ttl3, recs3⟩ : DRRSet)]).map
          (d_rrset_views domain)).flatten,
      ¬(v.rtype = rtype ∧ v.name = full_name domain name ∧ v.content = content0)) ∧
    (∃ v ∈ ((zone.filter (fun (rr : DRRSet) =>
          decide (¬(rr.name = fqdn_name domain name ∧ rr.rtype = rtype))) ++
        [(⟨fqdn_name domain name, rtype, ttl3, recs3⟩ : DRRSet)]).map
          (d_rrset_views domain)).flatten,
      v.rtype = rtype ∧ v.name = full_name domain name ∧ v.content = content) := by
  constructor
  · intro v hv hcontra
    obtain ⟨h1, h2, h3⟩ := hcontra
    rw [List.mem_flatten] at hv
    obtain ⟨lvs, hlvs, hvin⟩ := hv
    rw [List.mem_map] at hlvs
    obtain ⟨rr, hrr, rfl⟩ := hlvs
    unfold d_rrset_views at hvin
    rw [List.mem_map] at hvin
    obtain ⟨r, hrrec, rfl⟩ := hvin
    rcases List.mem_append.mp hrr with hrest | hlast
    · have hm := List.mem_filter.mp hrest
      have hkey := hm.2
      rw [decide_eq_true_eq] at hkey
      exact hkey ⟨huniq rr hm.1 h1 h2, h1⟩
    · rw [List.mem_singleton] at hlast
      subst hlast
      exact habs r hrrec h3
  · obtain ⟨r, hrrec, hru⟩ := hpres
    refine ⟨{ id := make_identifier rtype (fqdn_name domain name) r.content,
              rtype := rtype, name := full_name domain (fqdn_name domain name),
              content := unclean_content domain rtype r.content, ttl := ttl3 }, ?_, ?_, ?_, ?_⟩
    · rw [List.mem_flatten]
      refine ⟨d_rrset_views domain ⟨fqdn_name domain name, rtype, ttl3, recs3⟩, ?_, ?_⟩
      · rw [List.mem_map]
        exact ⟨⟨fqdn_name domain name, rtype, ttl3, recs3⟩,
          List.mem_append.mpr (Or.inr (List.mem_singleton.mpr rfl)), rfl⟩
      · unfold d_rrset_views
        rw [List.mem_map]
        exact ⟨r, hrrec, rfl⟩
    · rfl
    · exact full_name_fqdn domain name hdomne hdomlast
    · exact hru

/-- Characterization of the spec-modelled server REPLACE application. -/
theorem apply_patch_replace (zone : List DRRSet) (N T : Str) (ttl : Nat)
    (recs : List DRecord) :
    apply_patch_d zone ⟨N, T, ttl, recs, .REPLACE⟩ =
      if recs = [] then zone.filter (fun rr => decide (¬(rr.name = N ∧ rr.rtype = T)))
      else zone.filter (fun rr => decide (¬(rr.name = N ∧ rr.rtype = T))) ++
        [⟨N, T, ttl, recs⟩] := rfl

/-- C6 (amended, devnomads): `update_record` is decomposed as delete first,
create second; for an identifier synthesized from (rtype, name, old content)
whose components avoid the identifier delimiters, on a well-formed zone
(canonical rrset names, unique per name and type, decoded contents not
colliding) and with the new transport value differing from the old,
`list_records` afterwards no longer returns the old (rtype, name,
old content) tuple and does return the new one.  hetzner's `_move_record`
violates the order: it creates the new record first and deletes second (see
the counterexample), leaving the old value listed. -/
theorem update_decomposed_d (domain : Str) (ttlOpt : Option Nat) (zone : List DRRSet)
    (rtype name content0 content cv0 cv : Str) (rrset : DRRSet)
    (hr : '/' ∉ rtype) (hn : '/' ∉ name) (hneq : '=' ∉ name) (hc0 : '/' ∉ content0)
    (hdomne : domain ≠ []) (hdomlast : domain.getLast? ≠ some '.')
    (hfind : zone.find? (fun rr =>
        decide (rr.rtype = rtype ∧ fqdn_name domain rr.name = fqdn_name domain name)) =
      some rrset)
    (hname : rrset.name = fqdn_name domain name)
    (hclean0 : clean_content domain rtype content0 = some cv0)
    (hclean : clean_content domain rtype content = some cv)
    (hcvne : cv ≠ cv0)
    (hdec : unclean_content domain rtype cv = content)
    (hcoll : ∀ r ∈ rrset.records, unclean_content domain rtype r.content = content0 →
      r.content = cv0)
    (huniq : ∀ rr ∈ zone, rr.rtype = rtype →
      full_name domain rr.name = full_name domain name → rr.name = rrset.name) :
    ∃ zone3 views,
      update_record_d domain ttlOpt zone (make_identifier rtype name content0)
          rtype name content = .ok (zone3, true) ∧
      list_records_d domain zone3 none none none = some views ∧
      (∀ v ∈ views, ¬(v.rtype = rtype ∧ v.name = full_name domain name ∧
        v.content = content0)) ∧
      (∃ v ∈ views, v.rtype = rtype ∧ v.name = full_name domain name ∧
        v.content = content) := by
  have hcc : content ≠ content0 := by
    intro h
    rw [h, hclean0] at hclean
    exact hcvne (Option.some.inj hclean).symm
  obtain ⟨rname0, rt0, ttl0, recs0⟩ := rrset
  have hpred := List.find?_some hfind
  rw [decide_eq_true_eq] at hpred
  have hrt : rtype = rt0 := hpred.1.symm
  subst hrt
  have hname2 : rname0 = fqdn_name domain name := hname
  subst hname2
  have hdel : delete_record_d domain zone
      (some (make_identifier rtype name content0)) none none none =
      .ok (apply_patch_d zone ⟨fqdn_name domain name, rtype, ttl0,
        recs0.filter (fun r => decide (r.content ≠ cv0)), .REPLACE⟩, true) := by
    unfold delete_record_d
    simp only [parse_make_eq rtype name content0 hr hn hneq hc0, hfind, hclean0]
  by_cases hF : recs0.filter (fun r => decide (r.content ≠ cv0)) = []
  · have hz2 : apply_patch_d zone ⟨fqdn_name domain name, rtype, ttl0,
        recs0.filter (fun r => decide (r.content ≠ cv0)), .REPLACE⟩ =
        zone.filter (fun (rr : DRRSet) =>
          decide (¬(rr.name = fqdn_name domain name ∧ rr.rtype = rtype))) := by
      rw [apply_patch_replace, if_pos hF]
    have hfind2 : find_rrset_d (zone.filter (fun (rr : DRRSet) =>
        decide (¬(rr.name = fqdn_name domain name ∧ rr.rtype = rtype))))
        (fqdn_name domain name) rtype = none :=
      find_rrset_d_rest zone (fqdn_name domain name) rtype
    have hcr : create_record_d domain ttlOpt
        (zone.filter (fun (rr : DRRSet) =>
          decide (¬(rr.name = fqdn_name domain name ∧ rr.rtype = rtype))))
        rtype name content =
        some (apply_patch_d
          (zone.filter (fun (rr : DRRSet) =>
            decide (¬(rr.name = fqdn_name domain name ∧ rr.rtype = rtype))))
          ⟨fqdn_name domain name, rtype, pyOrNat ttlOpt 600, [⟨cv, false⟩], .REPLACE⟩,
          true) := by
      unfold create_record_d create_request_d
      simp only [hclean, Option.map_some', hfind2]
    have hz3 : apply_patch_d
        (zone.filter (fun (rr : DRRSet) =>
          decide (¬(rr.name = fqdn_name domain name ∧ rr.rtype = rtype))))
        ⟨fqdn_name domain name, rtype, pyOrNat ttlOpt 600, [⟨cv, false⟩], .REPLACE⟩ =
        zone.filter (fun (rr : DRRSet) =>
          decide (¬(rr.name = fqdn_name domain name ∧ rr.rtype = rtype))) ++
        [⟨fqdn_name domain name, rtype, pyOrNat ttlOpt 600, [⟨cv, false⟩]⟩] := by
      rw [apply_patch_replace, if_neg (by simp), List.filter_filter]
      simp only [Bool.and_self]
    refine ⟨zone.filter (fun (rr : DRRSet) =>
        decide (¬(rr.name = fqdn_name domain name ∧ rr.rtype = rtype))) ++
        [⟨fqdn_name domain name, rtype, pyOrNat ttlOpt 600, [⟨cv, false⟩]⟩],
      ((zone.filter (fun (rr : DRRSet) =>
          decide (¬(rr.name = fqdn_name domain name ∧ rr.rtype = rtype))) ++
        [(⟨fqdn_name domain name, rtype, pyOrNat ttlOpt 600, [⟨cv, false⟩]⟩ : DRRSet)]).map
          (d_rrset_views domain)).flatten,
      ?_, list_records_d_all domain _, ?_, ?_⟩
    · unfold update_record_d
      rw [hdel, hz2]
      dsimp only
      rw [hcr]
      dsimp only
      rw [hz3]
    · exact (d_update_views domain zone rtype name content0 content (pyOrNat ttlOpt 600)
        [⟨cv, false⟩] hdomne hdomlast huniq
        (by
          intro r hrq
          rw [List.mem_singleton] at hrq
          subst hrq
          rw [hdec]
          exact hcc)
        ⟨⟨cv, false⟩, List.mem_singleton.mpr rfl, hdec⟩).1
    · exact (d_update_views domain zone rtype name content0 content (pyOrNat ttlOpt 600)
        [⟨cv, false⟩] hdomne hdomlast huniq
        (by
          intro r hrq
          rw [List.mem_singleton] at hrq
          subst hrq
          rw [hdec]
          exact hcc)
        ⟨⟨cv, false⟩, List.mem_singleton.mpr rfl, hdec⟩).2
  · have hz2 : apply_patch_d zone ⟨fqdn_name domain name, rtype, ttl0,
        recs0.filter (fun r => decide (r.content ≠ cv0)), .REPLACE⟩ =
        zone.filter (fun (rr : DRRSet) =>
          decide (¬(rr.name = fqdn_name domain name ∧ rr.rtype = rtype))) ++
        [⟨fqdn_name domain name, rtype, ttl0,
          recs0.filter (fun r => decide (r.content ≠ cv0))⟩] := by
      rw [apply_patch_replace, if_neg hF]
    have hfind2 : find_rrset_d
        (zone.filter (fun (rr : DRRSet) =>
          decide (¬(rr.name = fqdn_name domain name ∧ rr.rtype = rtype))) ++
         [⟨fqdn_name domain name, rtype, ttl0,
           recs0.filter (fun r => decide (r.content ≠ cv0))⟩])
        (fqdn_name domain name) rtype =
        some ⟨fqdn_name domain name, rtype, ttl0,
          recs0.filter (fun r => decide (r.content ≠ cv0))⟩ := by
      unfold find_rrset_d
      rw [List.find?_append]
      have h1 := find_rrset_d_rest zone (fqdn_name domain name) rtype
      unfold find_rrset_d at h1
      rw [h1]
      simp
    have hcr : create_record_d domain ttlOpt
        (zone.filter (fun (rr : DRRSet) =>
          decide (¬(rr.name = fqdn_name domain name ∧ rr.rtype = rtype))) ++
         [⟨fqdn_name domain name, rtype, ttl0,
           recs0.filter (fun r => decide (r.content ≠ cv0))⟩])
        rtype name content =
        some (apply_patch_d
          (zone.filter (fun (rr : DRRSet) =>
            decide (¬(rr.name = fqdn_name domain name ∧ rr.rtype = rtype))) ++
           [⟨fqdn_name domain name, rtype, ttl0,
             recs0.filter (fun r => decide (r.content ≠ cv0))⟩])
          ⟨fqdn_name domain name, rtype, ttl0,
            ⟨cv, false⟩ :: (recs0.filter (fun r => decide (r.content ≠ cv0))).filter
              (fun r => decide (r.content ≠ cv)), .REPLACE⟩, true) := by
      unfold create_record_d create_request_d
      simp only [hclean, Option.map_some', hfind2]
    have hz3 : apply_patch_d
        (zone.filter (fun (rr : DRRSet) =>
          decide (¬(rr.name = fqdn_name domain name ∧ rr.rtype = rtype))) ++
         [⟨fqdn_name domain name, rtype, ttl0,
           recs0.filter (fun r => decide (r.content ≠ cv0))⟩])
        ⟨fqdn_name domain name, rtype, ttl0,
          ⟨cv, false⟩ :: (recs0.filter (fun r => decide (r.content ≠ cv0))).filter
            (fun r => decide (r.content ≠ cv)), .REPLACE⟩ =
        zone.filter (fun (rr : DRRSet) =>
          decide (¬(rr.name = fqdn_name domain name ∧ rr.rtype = rtype))) ++
        [⟨fqdn_name domain name, rtype, ttl0,
          ⟨cv, false⟩ :: (recs0.filter (fun r => decide (r.content ≠ cv0))).filter
            (fun r => decide (r.content ≠ cv))⟩] := by
      rw [apply_patch_replace, if_neg (by simp), List.filter_append, List.filter_filter]
      simp [Bool.and_self]
    refine ⟨zone.filter (fun (rr : DRRSet) =>
        decide (¬(rr.name = fqdn_name domain name ∧ rr.rtype = rtype))) ++
        [⟨fqdn_name domain name, rtype, ttl0,
          ⟨cv, false⟩ :: (recs0.filter (fun r => decide (r.content ≠ cv0))).filter
            (fun r => decide (r.content ≠ cv))⟩],
      ((zone.filter (fun (rr : DRRSet) =>
          decide (¬(rr.name = fqdn_name domain name ∧ rr.rtype = rtype))) ++
        [(⟨fqdn_name domain name, rtype, ttl0,
          ⟨cv, false⟩ :: (recs0.filter (fun r => decide (r.content ≠ cv0))).filter
            (fun r => decide (r.content ≠ cv))⟩ : DRRSet)]).map
          (d_rrset_views domain)).flatten,
      ?_, list_records_d_all domain _, ?_, ?_⟩
    · unfold update_record_d
      rw [hdel, hz2]
      dsimp only
      rw [hcr]
      dsimp only
      rw [hz3]
    · refine (d_update_views domain zone rtype name content0 content ttl0
        (⟨cv, false⟩ :: (recs0.filter (fun r => decide (r.content ≠ cv0))).filter
          (fun r => decide (r.content ≠ cv))) hdomne hdomlast huniq ?_ ?_).1
      · intro r hrq
        rcases List.mem_cons.mp hrq with hhd | htl
        · subst hhd
          rw [hdec]
          exact hcc
        · have hm1 := List.mem_filter.mp htl
          have hm2 := List.mem_filter.mp hm1.1
          intro hu
          have hcv0 := hcoll r hm2.1 hu
          rw [decide_eq_true_eq] at hm2
          exact hm2.2 hcv0
      · exact ⟨⟨cv, false⟩, List.mem_cons_self _ _, hdec⟩
    · refine (d_update_views domain zone rtype name content0 content ttl0
        (⟨cv, false⟩ :: (recs0.filter (fun r => decide (r.content ≠ cv0))).filter
          (fun r => decide (r.content ≠ cv))) hdomne hdomlast huniq ?_ ?_).2
      · intro r hrq
        rcases List.mem_cons.mp hrq with hhd | htl
        · subst hhd
          rw [hdec]
          exact hcc
        · have hm1 := List.mem_filter.mp htl
          have hm2 := List.mem_filter.mp hm1.1
          intro hu
          have hcv0 := hcoll r hm2.1 hu
          rw [decide_eq_true_eq] at hm2
          exact hm2.2 hcv0
      · exact ⟨⟨cv, false⟩, List.mem_cons_self _ _, hdec⟩

/-- C6 counterexample: hetzner `update_record` with identifier and content
goes through `_move_record`, whose first issued mutation is the CREATE
(add_records on the new name) and whose delete comes second — the claim says
delete first — and afterwards `list_records` still returns the updated
rrset's old value (A www 1.1.1.1). -/
theorem update_decomposed_cx :
    update_record_h (txt "example.com") none (txt "fid") 3600
        [⟨txt "id1", txt "www", txt "A", 300, [⟨txt "1.1.1.1"⟩, ⟨txt "2.2.2.2"⟩]⟩]
        (some (txt "id1")) none (some (txt "mail")) (some (txt "2.2.2.2")) =
      .ok ([⟨txt "id1", txt "www", txt "A", 300, [⟨txt "1.1.1.1"⟩]⟩,
            ⟨txt "fid", txt "mail", txt "A", 3600, [⟨txt "2.2.2.2"⟩]⟩],
           [.addRecords (txt "mail") (txt "A") none [⟨txt "2.2.2.2"⟩],
            .removeRecords (txt "www") (txt "A") [⟨txt "2.2.2.2"⟩]],
           true) ∧
    (RecordView.mk (txt "id1") (txt "A") (txt "www.example.com") (txt "1.1.1.1") 300) ∈
      list_records_h (txt "example.com")
        [⟨txt "id1", txt "www", txt "A", 300, [⟨txt "1.1.1.1"⟩]⟩,
         ⟨txt "fid", txt "mail", txt "A", 3600, [⟨txt "2.2.2.2"⟩]⟩] none none none := by
  exact ⟨by decide, by decide⟩

/-- C6 witness: updating www A from 1.1.1.1 to 2.2.2.2 through a synthesized
identifier on a one-rrset zone. -/
theorem update_decomposed_d_witness :
    ∃ zone3 views,
      update_record_d (txt "example.com") none
          [⟨txt "www.example.com.", txt "A", 300, [⟨txt "1.1.1.1", false⟩]⟩]
          (make_identifier (txt "A") (txt "www") (txt "1.1.1.1"))
          (txt "A") (txt "www") (txt "2.2.2.2") = .ok (zone3, true) ∧
      list_records_d (txt "example.com") zone3 none none none = some views ∧
      (∀ v ∈ views, ¬(v.rtype = txt "A" ∧
        v.name = full_name (txt "example.com") (txt "www") ∧
        v.content = txt "1.1.1.1")) ∧
      (∃ v ∈ views, v.rtype = txt "A" ∧
        v.name = full_name (txt "example.com") (txt "www") ∧
        v.content = txt "2.2.2.2") :=
  update_decomposed_d (txt "example.com") none
    [⟨txt "www.example.com.", txt "A", 300, [⟨txt "1.1.1.1", false⟩]⟩]
    (txt "A") (txt "www") (txt "1.1.1.1") (txt "2.2.2.2") (txt "1.1.1.1") (txt "2.2.2.2")
    ⟨txt "www.example.com.", txt "A", 300, [⟨txt "1.1.1.1", false⟩]⟩
    (by decide) (by decide) (by decide) (by decide) (by decide) (by decide)
    (by decide) (by decide) (by decide) (by decide) (by decide) (by decide)
    (by decide) (by decide)

end DnsLexicon
